import Mathlib

/-!
Verification of the SDMX 2.1 constraint and key-selection subsystem
(`sdmx/model/v21.py`): selection values, member selections, cube regions,
data key sets, content constraints, and the key-iteration algorithm.

Code present in `src/sdmx/model/v21.py` (`Constraint.__contains__`,
`ContentConstraint.__contains__`, `ContentConstraint.iter_keys`) is embedded
directly from that source.  The classes it relies on from `sdmx.model.common`
(`BaseMemberSelection`, `CubeRegion`, `BaseDataKeySet`,
`BaseDataStructureDefinition.iter_keys`) are not part of the source tree here;
their definitions are modelled from the specification and are marked
`Modelled from the spec:` in their doc comments.

Dimension identifiers and coded values are strings.  Python exceptions are
modelled with `Except ModelError`; advisory log warnings are modelled as an
explicit list of `Diagnostic` values returned beside the result.
-/

namespace Sdmx

/-- A dimension identifier. -/
abbrev DimId := String

/-- A raw dimension value. -/
abbrev Value := String

/-- Errors raised by the constraint subsystem: `notImplemented` models Python
`NotImplementedError` (no content predicate), `unresolvedDimension` a key or
dimension id unknown to the region or structure, and `unenumerableDomain` an
attempt to enumerate a dimension with no enumerable domain. -/
inductive ModelError
  | notImplemented
  | unresolvedDimension
  | unenumerableDomain
deriving Repr, DecidableEq

/-- Modelled from the spec: `MemberValue` — exact string match against a coded
value, with an opaque cascade flag that is carried but not interpreted. -/
structure MemberValue where
  value : Value
  cascade_values : Bool := false
deriving Repr, DecidableEq

/-- Modelled from the spec: `MemberSelection` — a set of member values for one
dimension together with an include/exclude polarity.  Time-range selection
values are outside the claims considered here, so `values` holds the
`MemberValue` variant only. -/
structure MemberSelection where
  values_for : DimId
  values : List MemberValue
  included : Bool := true
deriving Repr, DecidableEq

/-- Modelled from the spec: `MemberSelection.matches` — true when the raw
value equals any contained value under `included` polarity (equal-to-any when
`included` is true, not-equal-to-any when it is false). -/
def MemberSelection.matches (ms : MemberSelection) (v : Value) : Bool :=
  (ms.values.any fun mv => mv.value == v) == ms.included

/-- A key: an ordered mapping from dimension id to concrete value. -/
abbrev Key := List (DimId × Value)

/-- Look up the value a key assigns to a dimension id. -/
def keyGet (k : Key) (d : DimId) : Option Value :=
  (k.find? fun p => p.1 == d).map (·.2)

/-- Modelled from the spec: `CubeRegion` — a conjunction of member selections,
at most one per dimension id, with a region-level include/exclude polarity. -/
structure CubeRegion where
  included : Bool := true
  member : List MemberSelection := []
deriving Repr, DecidableEq

/-- Helper for `CubeRegion.contains`: conjunction over a list of member
selections, `none` when the key omits a referenced dimension. -/
def cubeContainsAux (k : Key) : List MemberSelection → Option Bool
  | [] => some true
  | ms :: rest =>
    match keyGet k ms.values_for with
    | none => none
    | some v =>
      match cubeContainsAux k rest with
      | none => none
      | some b => some (ms.matches v && b)

/-- Modelled from the spec: `CubeRegion.contains` — every dimension present in
`member` must be satisfied by the key's value; absent dimensions impose no
constraint; `none` models the `UnresolvedDimension` failure when the key omits
a referenced dimension.  The region's own `included` flag does not affect
`contains`. -/
def CubeRegion.contains (cr : CubeRegion) (k : Key) : Option Bool :=
  cubeContainsAux k cr.member

/-- Modelled from the spec: `DataKey` — a fully specified point of the key
space, an ordered map from dimension id to raw value. -/
structure DataKey where
  values : Key
deriving Repr, DecidableEq

/-- Modelled from the spec: `DataKeySet` — an explicit list of data keys plus
an inclusion polarity. -/
structure DataKeySet where
  included : Bool
  keys : List DataKey := []
deriving Repr, DecidableEq

/-- Modelled from the spec: `DataKeySet` membership —
`any(dk.values == key for dk in keys) == included`. -/
def DataKeySet.contains (dks : DataKeySet) (k : Key) : Bool :=
  (dks.keys.any fun dk => dk.values == k) == dks.included

/-- SDMX 2.1 `Constraint` (src lines 106-123): the base constraint holds an
optional data key set. -/
structure Constraint where
  data_content_keys : Option DataKeySet := none
deriving Repr, DecidableEq

/-- `Constraint.__contains__` (src lines 119-123): raise when no data key set
is present, otherwise delegate to the data key set. -/
def Constraint.contains (c : Constraint) (k : Key) : Except ModelError Bool :=
  match c.data_content_keys with
  | none => .error .notImplemented
  | some dks => .ok (dks.contains k)

/-- SDMX 2.1 `ContentConstraint` (src lines 130-137): inherits the optional
data key set from `Constraint` and adds a list of cube regions and the set of
constrainable artefacts (represented by numeric artefact identities) the
constraint is declared to apply to. -/
structure ContentConstraint where
  data_content_keys : Option DataKeySet := none
  data_content_region : List CubeRegion := []
  content : List Nat := []
deriving Repr, DecidableEq

/-- Python `all(value in cr for cr in regions)`: regions are checked in order;
a false region short-circuits to false, and an `UnresolvedDimension` failure
from a region propagates. -/
def allRegionsContain (k : Key) : List CubeRegion → Except ModelError Bool
  | [] => .ok true
  | cr :: rest =>
    match cr.contains k with
    | none => .error .unresolvedDimension
    | some false => .ok false
    | some true => allRegionsContain k rest

/-- `ContentConstraint.__contains__` (src lines 139-143): if
`data_content_region` is non-empty, the key must lie in every listed cube
region; otherwise raise `NotImplementedError`. -/
def ContentConstraint.contains (cc : ContentConstraint) (k : Key) :
    Except ModelError Bool :=
  match cc.data_content_region with
  | [] => .error .notImplemented
  | regions => allRegionsContain k regions

/-- A dimension of a data structure definition: a stable identifier, and an
enumerable domain of coded values when the representation is coded (`none`
models a non-coded representation). -/
structure Dimension where
  id : DimId
  codes : Option (List Value)
deriving Repr, DecidableEq

/-- SDMX 2.1 `DataStructureDefinition` as the key-iteration algorithm sees it:
an artefact identity (standing for the `ConstrainableArtefact` the constraint's
`content` set may reference) and the ordered dimension list. -/
structure DataStructureDefinition where
  artefact_id : Nat := 0
  dimensions : List Dimension := []
deriving Repr, DecidableEq

/-- The member selection, if any, that the first region of a constraint's
`data_content_region` provides for a dimension id. -/
def selectionFor (constraint : Option ContentConstraint) (d : DimId) :
    Option MemberSelection :=
  constraint.bind fun cc =>
    cc.data_content_region.head?.bind fun cr =>
      cr.member.find? fun ms => ms.values_for == d

/-- Modelled from the spec: the candidate value set of one dimension under an
optional constraint — the full coded domain intersected with the matching
member selection from the first region when one exists (include polarity keeps
matches, exclude polarity removes them); a non-coded dimension with an
including selection enumerates the selection's values, and a non-coded
dimension with no restricting selection fails with `UnenumerableDomain`. -/
def candidateValues (constraint : Option ContentConstraint) (dim : Dimension) :
    Except ModelError (List Value) :=
  match dim.codes, selectionFor constraint dim.id with
  | some domain, some ms => .ok (domain.filter fun v => ms.matches v)
  | some domain, none => .ok domain
  | none, some ms =>
    if ms.included then .ok (ms.values.map (·.value))
    else .error .unenumerableDomain
  | none, none => .error .unenumerableDomain

/-- Effectful map over a list in `Except`, stopping at the first error. -/
def exceptMapList {α β : Type} (f : α → Except ModelError β) :
    List α → Except ModelError (List β)
  | [] => .ok []
  | a :: l =>
    match f a with
    | .error e => .error e
    | .ok b =>
      match exceptMapList f l with
      | .error e => .error e
      | .ok bs => .ok (b :: bs)

/-- Cartesian product of per-dimension candidate sets, dimension-major:
the first listed dimension varies slowest. -/
def cartesianKeys : List (DimId × List Value) → List Key
  | [] => [[]]
  | (d, vs) :: rest =>
    (vs.map fun v => (cartesianKeys rest).map fun k => (d, v) :: k).flatten

/-- Modelled from the spec: resolve the ordered dimension list — the
structure's own dimensions when `dims` is empty, otherwise the dimensions
named by `dims`, failing with `UnresolvedDimension` when an id is unknown. -/
def DataStructureDefinition.dimSelection (dsd : DataStructureDefinition)
    (dims : List DimId) : Except ModelError (List Dimension) :=
  match dims with
  | [] => .ok dsd.dimensions
  | _ =>
    exceptMapList
      (fun i =>
        match dsd.dimensions.find? (fun d => d.id == i) with
        | some d => .ok d
        | none => .error .unresolvedDimension)
      dims

/-- Modelled from the spec: `DataStructureDefinition.iter_keys` — resolve the
dimension list, compute each dimension's candidate value set under the
optional constraint, and produce the Cartesian product as keys in dimension
order. -/
def DataStructureDefinition.iter_keys (dsd : DataStructureDefinition)
    (constraint : Option ContentConstraint) (dims : List DimId) :
    Except ModelError (List Key) :=
  match dsd.dimSelection dims with
  | .error e => .error e
  | .ok ds =>
    match
      exceptMapList
        (fun d =>
          match candidateValues constraint d with
          | .error e => .error e
          | .ok vs => .ok (d.id, vs))
        ds
    with
    | .error e => .error e
    | .ok cands => .ok (cartesianKeys cands)

/-- Advisory diagnostics logged (not raised) by `ContentConstraint.iter_keys`. -/
inductive Diagnostic
  | objNotInContent
deriving Repr, DecidableEq

/-- `ContentConstraint.iter_keys` (src lines 155-172): warn when the structure
is not in `content`, then delegate to the structure's `iter_keys` with this
constraint.  The advisory warning is returned beside the result. -/
def ContentConstraint.iter_keys (cc : ContentConstraint)
    (obj : DataStructureDefinition) (dims : List DimId) :
    List Diagnostic × Except ModelError (List Key) :=
  ((if cc.content.contains obj.artefact_id then []
    else [Diagnostic.objNotInContent]),
   obj.iter_keys (some cc) dims)

/-! Concrete instances used by counterexamples and witnesses. -/

/-- A member selection keeping only value `a1` of dimension `A`. -/
def msA1 : MemberSelection := { values_for := "A", values := [{ value := "a1" }] }

/-- A cube region with no member selections: it contains every key. -/
def crUnrestricted : CubeRegion := {}

/-- A cube region restricting dimension `A` to `a1`. -/
def crOnlyA1 : CubeRegion := { member := [msA1] }

/-- A content constraint listing two cube regions: an unrestricted one first,
then one restricting `A` to `a1`. -/
def ccTwoRegions : ContentConstraint :=
  { data_content_region := [crUnrestricted, crOnlyA1] }

/-- A key assigning `a2` to dimension `A`: inside the first region of
`ccTwoRegions` but outside the second. -/
def keyA2 : Key := [("A", "a2")]

/-- A data key set holding the single key `A = a1`, with include polarity. -/
def dksSingleA1 : DataKeySet := { included := true, keys := [⟨[("A", "a1")]⟩] }

/-- A content constraint whose data key set is populated but whose region list
is empty. -/
def ccKeysOnly : ContentConstraint := { data_content_keys := some dksSingleA1 }

/-- A key listed in `dksSingleA1`. -/
def keyA1 : Key := [("A", "a1")]

/-- A content constraint with neither a data key set nor any cube region. -/
def ccNoPredicate : ContentConstraint := {}

/-- Dimension `A` with coded domain `[a1, a2]`. -/
def dimA : Dimension := ⟨"A", some ["a1", "a2"]⟩

/-- Dimension `B` with coded domain `[b1, b2]`. -/
def dimB : Dimension := ⟨"B", some ["b1", "b2"]⟩

/-- A structure with the two coded dimensions `A` and `B`. -/
def dsdAB : DataStructureDefinition := { artefact_id := 1, dimensions := [dimA, dimB] }

/-- A content constraint whose single region restricts `A` to `a1`, declared
to apply to `dsdAB`. -/
def ccRegionA1 : ContentConstraint :=
  { data_content_region := [crOnlyA1], content := [1] }

/-- The data key `{A: a1, B: b1}`. -/
def dkA1B1 : DataKey := ⟨[("A", "a1"), ("B", "b1")]⟩

/-- A data key set excluding exactly the key `{A: a1, B: b1}`. -/
def dksExcludeA1B1 : DataKeySet := { included := false, keys := [dkA1B1] }

/-- A member selection on dimension `DIM` keeping only value `x`. -/
def msDimX : MemberSelection := { values_for := "DIM", values := [{ value := "x" }] }

/-- A non-coded dimension `T`. -/
def dimT : Dimension := ⟨"T", none⟩

/-- A structure whose only dimension is the non-coded `T`. -/
def dsdT : DataStructureDefinition := { artefact_id := 9, dimensions := [dimT] }

/-! Theorems. -/

/-- `allRegionsContain` returns true exactly when every listed region contains
the key. -/
theorem allRegionsContain_ok_true_iff (k : Key) (l : List CubeRegion) :
    allRegionsContain k l = .ok true ↔ ∀ cr ∈ l, cr.contains k = some true := by
  induction l with
  | nil => simp [allRegionsContain]
  | cons cr rest ih =>
    cases h : cr.contains k with
    | none => simp [allRegionsContain, h]
    | some b => cases b <;> simp [allRegionsContain, h, ih]

/-- C1, counterexample: on `ccTwoRegions` and the key `A = a2`, membership is
false although the first listed region contains the key — the result is not
`data_content_region[0].contains(key)` and does depend on later regions. -/
theorem contains_not_first_region_only :
    ContentConstraint.contains ccTwoRegions keyA2 = .ok false ∧
    ccTwoRegions.data_content_region.head?.bind (fun cr => cr.contains keyA2) =
      some true :=
  ⟨rfl, rfl⟩

/-- C1, amended: for every content constraint with a non-empty region list,
`contains` is the conjunction over all listed regions — it returns true
exactly when every listed cube region contains the key (no region after the
first is ignored, and no warning is involved). -/
theorem contains_iff_all_regions (cc : ContentConstraint) (k : Key)
    (h : cc.data_content_region ≠ []) :
    cc.contains k = .ok true ↔
      ∀ cr ∈ cc.data_content_region, cr.contains k = some true := by
  cases hr : cc.data_content_region with
  | nil => exact absurd hr h
  | cons cr rest =>
    rw [ContentConstraint.contains, hr]
    exact allRegionsContain_ok_true_iff k (cr :: rest)

/-- C1, witness: the amended theorem applied to `ccTwoRegions` and `keyA2`. -/
theorem contains_iff_all_regions_witness :
    ccTwoRegions.data_content_region ≠ [] ∧
    (ContentConstraint.contains ccTwoRegions keyA2 = .ok true ↔
      ∀ cr ∈ ccTwoRegions.data_content_region, cr.contains keyA2 = some true) :=
  ⟨by decide, contains_iff_all_regions ccTwoRegions keyA2 (by decide)⟩

/-- C2, counterexample: on `ccKeysOnly` — data key set populated, region list
empty — `contains` raises rather than returning a boolean, although the
claimed formula `any(dk.values == key for dk in keys) == included` evaluates
to true at the key `A = a1`. -/
theorem contains_ignores_data_content_keys_cex :
    ContentConstraint.contains ccKeysOnly keyA1 = .error .notImplemented ∧
    ((dksSingleA1.keys.any fun dk => dk.values == keyA1) == dksSingleA1.included)
      = true :=
  ⟨rfl, rfl⟩

/-- C2, amended: `ContentConstraint.contains` never consults
`data_content_keys` — replacing the data key set leaves its result unchanged;
the claimed membership formula is instead the behavior of the base
`Constraint.contains` when its data key set is populated. -/
theorem contains_keyset_is_base_constraint_behavior (cc : ContentConstraint)
    (dks : Option DataKeySet) (k : Key) (c : Constraint) (dks2 : DataKeySet)
    (h : c.data_content_keys = some dks2) :
    ContentConstraint.contains { cc with data_content_keys := dks } k =
      ContentConstraint.contains cc k ∧
    Constraint.contains c k =
      .ok ((dks2.keys.any fun dk => dk.values == k) == dks2.included) := by
  refine ⟨rfl, ?_⟩
  rw [Constraint.contains, h]
  rfl

/-- C2, witness: the amended theorem at `ccKeysOnly`, replacing its data key
set by `none`, against a base constraint holding `dksSingleA1`. -/
theorem contains_keyset_is_base_constraint_behavior_witness :
    Constraint.data_content_keys { data_content_keys := some dksSingleA1 } =
      some dksSingleA1 ∧
    (ContentConstraint.contains { ccKeysOnly with data_content_keys := none }
        keyA1 = ContentConstraint.contains ccKeysOnly keyA1 ∧
      Constraint.contains { data_content_keys := some dksSingleA1 } keyA1 =
        .ok ((dksSingleA1.keys.any fun dk => dk.values == keyA1) ==
          dksSingleA1.included)) :=
  ⟨rfl,
   contains_keyset_is_base_constraint_behavior ccKeysOnly none keyA1
     { data_content_keys := some dksSingleA1 } dksSingleA1 rfl⟩

/-- C3: a content constraint with no data key set and an empty region list
raises `NotImplementedError` on every membership query. -/
theorem contains_no_predicate_raises (cc : ContentConstraint) (k : Key)
    (_h1 : cc.data_content_keys = none) (h2 : cc.data_content_region = []) :
    ContentConstraint.contains cc k = .error .notImplemented := by
  rw [ContentConstraint.contains, h2]

/-- C3, witness: the theorem applied to `ccNoPredicate` at the key `A = a1`. -/
theorem contains_no_predicate_raises_witness :
    (ccNoPredicate.data_content_keys = none ∧
      ccNoPredicate.data_content_region = []) ∧
    ContentConstraint.contains ccNoPredicate keyA1 = .error .notImplemented :=
  ⟨⟨rfl, rfl⟩, contains_no_predicate_raises ccNoPredicate keyA1 rfl rfl⟩

/-- C10: even with a populated data key set, a content constraint with an
empty region list raises on every membership query — the content-constraint
predicate never falls back to the base constraint's data-key-set check. -/
theorem contains_empty_region_raises_despite_keys (cc : ContentConstraint)
    (dks : DataKeySet) (k : Key) (_h1 : cc.data_content_keys = some dks)
    (h2 : cc.data_content_region = []) :
    ContentConstraint.contains cc k = .error .notImplemented := by
  rw [ContentConstraint.contains, h2]

/-- C10, witness: the theorem applied to `ccKeysOnly`, whose data key set is
populated, at the key `A = a1`. -/
theorem contains_empty_region_raises_despite_keys_witness :
    (ccKeysOnly.data_content_keys = some dksSingleA1 ∧
      ccKeysOnly.data_content_region = []) ∧
    ContentConstraint.contains ccKeysOnly keyA1 = .error .notImplemented :=
  ⟨⟨rfl, rfl⟩,
   contains_empty_region_raises_despite_keys ccKeysOnly dksSingleA1 keyA1 rfl
     rfl⟩

/-- C4: with no constraint, `iter_keys` on the structure `{A:[a1,a2],
B:[b1,b2]}` yields exactly the four keys of the Cartesian product, each once,
in dimension-major order. -/
theorem iter_keys_cartesian_product :
    dsdAB.iter_keys none [] =
      .ok [[("A", "a1"), ("B", "b1")], [("A", "a1"), ("B", "b2")],
        [("A", "a2"), ("B", "b1")], [("A", "a2"), ("B", "b2")]] := rfl

/-- C5: under the constraint whose single region keeps only `A = a1`,
`iter_keys` yields exactly the two keys `{A:a1,B:b1}` and `{A:a1,B:b2}`. -/
theorem iter_keys_constrained_region :
    (ccRegionA1.iter_keys dsdAB []).2 =
      .ok [[("A", "a1"), ("B", "b1")], [("A", "a1"), ("B", "b2")]] := rfl

/-- C6: with include polarity, `matches` holds exactly on the selection's own
values, and flipping the polarity inverts `matches` at every value. -/
theorem memberSelection_polarity (ms : MemberSelection) (v : Value) :
    (ms.included = true →
      (ms.matches v = true ↔ ∃ mv ∈ ms.values, mv.value = v)) ∧
    MemberSelection.matches { ms with included := !ms.included } v =
      !(ms.matches v) := by
  constructor
  · intro h
    simp [MemberSelection.matches, h, List.any_eq_true]
  · show ((ms.values.any fun mv => mv.value == v) == !ms.included) =
      !((ms.values.any fun mv => mv.value == v) == ms.included)
    cases ms.values.any fun mv => mv.value == v <;> cases ms.included <;> rfl

/-- C6, witness: the theorem at the include-polarity selection `msDimX` and
the value `x`. -/
theorem memberSelection_polarity_witness :
    msDimX.included = true ∧
    (msDimX.matches "x" = true ↔ ∃ mv ∈ msDimX.values, mv.value = "x") ∧
    MemberSelection.matches { msDimX with included := !msDimX.included } "x" =
      !(msDimX.matches "x") := by
  have h := memberSelection_polarity msDimX "x"
  exact ⟨rfl, h.1 rfl, h.2⟩

/-- C7: under exclude polarity, the listed key `{A:a1,B:b1}` is not a member
of the data key set and the unlisted key `{A:a2,B:b2}` is. -/
theorem dataKeySet_exclusion_polarity :
    dksExcludeA1B1.contains [("A", "a1"), ("B", "b1")] = false ∧
    dksExcludeA1B1.contains [("A", "a2"), ("B", "b2")] = true := ⟨rfl, rfl⟩

/-- C8: the keys yielded by `ContentConstraint.iter_keys` do not depend on the
constraint's `content` set — replacing it by any other set leaves the yielded
key sequence unchanged, membership of the structure being only an advisory
warning. -/
theorem iter_keys_content_advisory_only (cc : ContentConstraint)
    (obj : DataStructureDefinition) (dims : List DimId) (c1 c2 : List Nat) :
    (ContentConstraint.iter_keys { cc with content := c1 } obj dims).2 =
    (ContentConstraint.iter_keys { cc with content := c2 } obj dims).2 := rfl

/-- When the effectful map over a list succeeds, it succeeded on every
element. -/
theorem exceptMapList_ok_forall {α β : Type} (f : α → Except ModelError β)
    (l : List α) (r : List β) (h : exceptMapList f l = .ok r) :
    ∀ x ∈ l, ∃ y, f x = .ok y := by
  induction l generalizing r with
  | nil => intro x hx; cases hx
  | cons a t ih =>
    intro x hx
    rw [exceptMapList] at h
    cases hfa : f a with
    | error e => rw [hfa] at h; exact Except.noConfusion h
    | ok b =>
      rw [hfa] at h
      cases hrec : exceptMapList f t with
      | error e => rw [hrec] at h; exact Except.noConfusion h
      | ok bs =>
        cases hx with
        | head => exact ⟨b, hfa⟩
        | tail _ hmem => exact ih bs hrec x hmem

/-- C9: a non-coded dimension with no restricting member selection has no
candidate value set — its candidate computation fails with
`UnenumerableDomain` — and key iteration over any structure containing such a
dimension never yields a key list. -/
theorem iter_keys_unenumerable_domain (cc : Option ContentConstraint)
    (dim : Dimension) (dsd : DataStructureDefinition)
    (h1 : dim ∈ dsd.dimensions) (h2 : dim.codes = none)
    (h3 : selectionFor cc dim.id = none) :
    candidateValues cc dim = .error .unenumerableDomain ∧
    ∀ ks, dsd.iter_keys cc [] ≠ .ok ks := by
  have hcand : candidateValues cc dim = .error .unenumerableDomain := by
    rw [candidateValues, h2, h3]
  refine ⟨hcand, fun ks hks => ?_⟩
  rw [DataStructureDefinition.iter_keys] at hks
  rw [show dsd.dimSelection [] = .ok dsd.dimensions from rfl] at hks
  dsimp only at hks
  cases hmap :
      exceptMapList
        (fun d =>
          match candidateValues cc d with
          | .error e => .error e
          | .ok vs => .ok (d.id, vs))
        dsd.dimensions with
  | error e => rw [hmap] at hks; exact Except.noConfusion hks
  | ok cands =>
    obtain ⟨y, hy⟩ := exceptMapList_ok_forall _ _ _ hmap dim h1
    rw [hcand] at hy
    exact Except.noConfusion hy

/-- C9, witness: the theorem at the unconstrained structure `dsdT`, whose only
dimension `T` is non-coded. -/
theorem iter_keys_unenumerable_domain_witness :
    (dimT ∈ dsdT.dimensions ∧ dimT.codes = none ∧
      selectionFor none dimT.id = none) ∧
    (candidateValues none dimT = .error .unenumerableDomain ∧
      ∀ ks, dsdT.iter_keys none [] ≠ .ok ks) :=
  ⟨⟨by decide, rfl, rfl⟩,
   iter_keys_unenumerable_domain none dimT dsdT (by decide) rfl rfl⟩

end Sdmx
